import Mathlib

/-!
# grpc-to-fpm: stream handler and FastCGI requester

A shallow embedding of `internal/proxy/fcgi_client.go` and
`internal/proxy/stream.go`.

Conventions of the embedding.

* A Go `string` is a Lean `String`; the functions that scan a string work on its
  list of characters. Every delimiter the code looks for is ASCII, so scanning
  characters and scanning UTF-8 bytes agree.
* A Go `[]byte` is a `List Byte`. A `nil` byte slice and an empty one are both `[]`
  (the code only takes their length and copies them).
* A Go `map[string]T` is an association list `GoMap T` in which the first binding
  of a key is the binding of the map. For `map[string][]string` the lookup returns
  `none` for the `nil` slice Go yields on a missing key and `some vs` for a stored
  slice, so that `m[k] == nil`, `len(m[k])` and `m[k][0]` are told apart.
* A Go `int` is 64 bits wide (`Int` with explicit range checks), `codes.Code` is a
  `uint32` (`Nat`, reduced modulo `2^32` at the conversion).
* A run-time panic (index out of range) is the result `none`.
* Logging has no effect on what is sent or written and is left out, except that the
  arguments of a logging call are still evaluated (they can panic).
* Functions of the Go standard library and of gRPC that the code calls are
  modelled after their documented behaviour; the FastCGI exchange itself
  (connection, records, parsing of the response) is a parameter `Backend`.
-/

namespace Proxy

/-! ## Characters and strings -/

/-- One byte. -/
abbrev Byte := Fin 256

/-- The character class `[A-Z]` of `regtransform`. -/
def isUpperAZ (c : Char) : Bool :=
  decide ('A'.toNat ≤ c.toNat) && decide (c.toNat ≤ 'Z'.toNat)

/-- One match of `regtransform = ([^A-Z])?([A-Z])` anchored at the head of the
input, with Go's leftmost-first preference: the greedy optional group takes a
character when it can. The result is capture group 1 (empty when the group took
no part), capture group 2 and the input left after the match. -/
def regtransformMatch : List Char → Option (List Char × Char × List Char)
  | [] => none
  | [a] => if isUpperAZ a then some ([], a, []) else none
  | a :: b :: rest =>
    if !isUpperAZ a && isUpperAZ b then some ([a], b, rest)
    else if isUpperAZ a then some ([], a, b :: rest)
    else none

/-- The call `regtransform.ReplaceAllString(s, "${1}-$2")`: scanning from the left,
every match is replaced by group 1, a hyphen and group 2; a character at which no
match starts is copied and the scan moves one character on. Matches are never
empty, so successive matches do not overlap. -/
def regtransformReplaceAll (s : List Char) : List Char :=
  match s with
  | [] => []
  | c :: cs =>
    match _hm : regtransformMatch (c :: cs) with
    | some (g1, g2, rest) => g1 ++ '-' :: g2 :: regtransformReplaceAll rest
    | none => c :: regtransformReplaceAll cs
termination_by s.length
decreasing_by
  · cases cs with
    | nil =>
      simp only [regtransformMatch] at _hm
      split at _hm <;> simp at _hm
      obtain ⟨-, -, rfl⟩ := _hm
      simp
    | cons b t =>
      simp only [regtransformMatch] at _hm
      split at _hm
      · simp at _hm
        obtain ⟨-, -, rfl⟩ := _hm
        simp
        omega
      · split at _hm <;> simp at _hm
        obtain ⟨-, -, rfl⟩ := _hm
        simp
  · simp

/-- Go's `unicode.ToLower`: ASCII is handled inline (`A`..`Z` are moved by 32, every
other ASCII character is kept); a character outside ASCII goes through the Unicode
case tables, which are the parameter `tbl`. -/
def unicodeToLower (tbl : Char → Char) (c : Char) : Char :=
  if c.toNat < 128 then
    if isUpperAZ c then Char.ofNat (c.toNat + 32) else c
  else tbl c

/-- Go's `strings.ToLower`. -/
def stringsToLower (tbl : Char → Char) (s : List Char) : List Char :=
  s.map (unicodeToLower tbl)

/-- Go's `strings.Split(s, sep)` for a separator of one character: the pieces of `s`
between the separators, in order. The result is never empty. -/
def stringsSplit (sep : Char) : List Char → List (List Char)
  | [] => [[]]
  | c :: cs =>
    if c = sep then [] :: stringsSplit sep cs
    else
      match stringsSplit sep cs with
      | [] => [[c]]
      | h :: t => (c :: h) :: t

/-- Value of a decimal digit. -/
def digitValue (c : Char) : Option Nat :=
  if '0'.toNat ≤ c.toNat ∧ c.toNat ≤ '9'.toNat then some (c.toNat - '0'.toNat) else none

/-- Reads a run of decimal digits, most significant first, onto the accumulator;
`none` when a character is not a digit. -/
def parseDigits : List Char → Nat → Option Nat
  | [], acc => some acc
  | c :: cs, acc =>
    match digitValue c with
    | none => none
    | some d => parseDigits cs (acc * 10 + d)

/-- The digits of `strconv.Atoi` after the sign has been taken off: at least one
decimal digit and nothing else; the signed value has to lie in `[-2^63, 2^63)`. -/
def atoiDigits (neg : Bool) (ds : List Char) : Option Int :=
  if ds = [] then none
  else
    match parseDigits ds 0 with
    | none => none
    | some n =>
      if neg then (if n ≤ 2 ^ 63 then some (-(n : Int)) else none)
      else (if n < 2 ^ 63 then some (n : Int) else none)

/-- Go's `strconv.Atoi` on the characters of its argument: an optional sign first. -/
def atoiChars : List Char → Option Int
  | [] => none
  | c :: t =>
    if c = '-' then atoiDigits true t
    else if c = '+' then atoiDigits false t
    else atoiDigits false (c :: t)

/-- Go's `strconv.Atoi` with a 64-bit `int`: an optional sign, then at least one
decimal digit and nothing else; the value has to lie in `[-2^63, 2^63)`. `none`
stands for the `*strconv.NumError` Go returns otherwise. -/
def atoi (s : String) : Option Int := atoiChars s.data

/-- Go's `strconv.Itoa`. -/
def itoa (n : Int) : String := toString n

/-- Go's `strings.IndexByte`: position of the first occurrence. -/
def indexByte (c : Char) : List Char → Option Nat
  | [] => none
  | x :: xs => if x = c then some 0 else (indexByte c xs).map (· + 1)

/-- Go's `strings.LastIndexByte`: position of the last occurrence. -/
def lastIndexByte (c : Char) : List Char → Option Nat
  | [] => none
  | x :: xs =>
    match lastIndexByte c xs with
    | some i => some (i + 1)
    | none => if x = c then some 0 else none

/-- Go's `net.SplitHostPort`: `host:port` or `[host]:port`. The port starts after the
last colon; a host in brackets ends at the first `]`, which has to stand right before
that colon; a host without brackets holds no colon; no other bracket may occur.
`none` stands for the `*net.AddrError`. -/
def splitHostPort (hostport : String) : Option (String × String) :=
  let s := hostport.data
  match lastIndexByte ':' s with
  | none => none
  | some i =>
    if s.head? = some '[' then
      match indexByte ']' s with
      | none => none
      | some e =>
        if e + 1 = s.length then none
        else if e + 1 = i then
          if (indexByte '[' (s.drop 1)).isSome then none
          else if (indexByte ']' (s.drop (e + 1))).isSome then none
          else some (String.mk ((s.take e).drop 1), String.mk (s.drop (i + 1)))
        else none
    else
      if (indexByte ':' (s.take i)).isSome then none
      else if (indexByte '[' s).isSome then none
      else if (indexByte ']' s).isSome then none
      else some (String.mk (s.take i), String.mk (s.drop (i + 1)))

/-- Upper-case hexadecimal digit. -/
def hexDigit (n : Nat) : Char := "0123456789ABCDEF".data.getD n '0'

/-- Percent-escape of one byte: `%XX`. -/
def escapeByte (b : UInt8) : List Char :=
  ['%', hexDigit (b.toNat / 16), hexDigit (b.toNat % 16)]

/-- Go's `url.QueryEscape`: ASCII letters, digits and `-`, `_`, `.`, `~` are kept, a
space becomes `+`, every other character is replaced by the percent-escapes of its
UTF-8 bytes. -/
def queryEscape (s : String) : String :=
  String.mk (s.data.flatMap fun c =>
    if c.isAlphanum || c = '-' || c = '_' || c = '.' || c = '~' then [c]
    else if c = ' ' then ['+']
    else (String.utf8EncodeChar c).flatMap escapeByte)

/-! ## Maps and slices -/

/-- A Go `map[string]T`: the first binding of a key is the binding of the map. -/
abbrev GoMap (α : Type) := List (String × α)

/-- The lookup `m[k]` of a `map[string][]string`: `none` is the `nil` slice of a
missing key. -/
def GoMap.get {α : Type} (m : GoMap α) (k : String) : Option α := m.lookup k

/-- The assignment `m[k] = v`. -/
def GoMap.set {α : Type} (m : GoMap α) (k : String) (v : α) : GoMap α := (k, v) :: m

/-- The bindings a `range` over the map visits: every key once, with its binding.
Go fixes no order; the keys are distinct, so a loop that assigns one key per
binding builds the same map in any order. -/
def GoMap.entries {α : Type} : GoMap α → List (String × α)
  | [] => []
  | (k, v) :: rest => (k, v) :: (GoMap.entries rest).filter (fun e => e.1 != k)

/-- A `map[string][]string`: gRPC metadata, CGI parameters, response headers. -/
abbrev Header := GoMap (List String)

/-- The length `len(s)` of a string slice (`0` for `nil`). -/
def sliceLen (s : Option (List String)) : Nat := (s.getD []).length

/-- The element `s[0]` of a string slice; `none` is the index-out-of-range panic. -/
def sliceFirst (s : Option (List String)) : Option String := (s.getD []).head?

/-! ## fcgi_client.go -/

/-- The requester configuration, `Config`. -/
structure Config where
  Host : String
  Port : Int
  ScriptPath : String
  ScriptName : String
  ClientIP : String
  ClientPort : String
deriving DecidableEq, Repr

/-- The requester, `Request`. -/
structure Request where
  config : Config
deriving DecidableEq, Repr

/-- The constructor `MakeRequest`. -/
def MakeRequest (config : Config) : Request := { config := config }

/-- The method `Request.convert`: hyphenate with `regtransform`, then lower-case. The error
result of the Go function is always `nil` and is left out. -/
def Request.convert (tbl : Char → Char) (_r : Request) (request : String) : String :=
  String.mk (stringsToLower tbl (regtransformReplaceAll request.data))

/-- Go's `url.Values.Encode` of the values `Request.urlEncode` builds, one value per
key: `key=value` pairs, both query-escaped, sorted by key and joined by `&`. -/
def Request.urlEncode (_r : Request) (params : GoMap String) : String :=
  String.intercalate "&"
    (((GoMap.entries params).insertionSort (fun a b => a.1 < b.1)).map
      fun kv => queryEscape kv.1 ++ "=" ++ queryEscape kv.2)

/-- The method `Request.getCgiParams`: the fixed CGI parameters. -/
def Request.getCgiParams (r : Request) (params : GoMap String) (length : Nat) : Header :=
  let path := r.config.ScriptPath ++ "/" ++ r.config.ScriptName
  let scriptName := "/" ++ r.config.ScriptName
  [ ("GATEWAY_INTERFACE", ["FastCGI/1.0"]),
    ("REQUEST_METHOD", ["POST"]),
    ("SCRIPT_FILENAME", [path]),
    ("SCRIPT_NAME", [path]),
    ("QUERY_STRING", [r.urlEncode params]),
    ("REQUEST_URI", [scriptName]),
    ("DOCUMENT_URI", [scriptName]),
    ("SERVER_SOFTWARE", ["php/fcgiclient"]),
    ("REMOTE_ADDR", [r.config.ClientIP]),
    ("REMOTE_PORT", [r.config.ClientPort]),
    ("SERVER_ADDR", [r.config.Host]),
    ("SERVER_PORT", [itoa r.config.Port]),
    ("SERVER_NAME", ["golang-grpc-proxy/1.1"]),
    ("SERVER_PROTOCOL", ["HTTP/1.1"]),
    ("CONTENT_TYPE", ["application/octet-stream"]),
    ("CONTENT_LENGTH", [itoa (length : Int)]) ]

/-- The parameter set `Request.Do` builds (lines 60 to 72 of `fcgi_client.go`): the
fixed table for the converted method and the body size, then one assignment
`requestParams["X-GRPC-"+key] = val` per binding of the metadata. -/
def Request.requestParams (tbl : Char → Char) (r : Request) (request : String)
    (headers : Header) (size : Nat) : Header :=
  (GoMap.entries headers).foldl (fun acc kv => acc.set ("X-GRPC-" ++ kv.1) kv.2)
    (r.getCgiParams [("r", r.convert tbl request)] size)

/-- The FastCGI backend as `Request.Do` sees it. The argument `n` counts the
connections opened before this one for the same stream. The result of connecting,
sending the parameters and the body, waiting, and parsing the response header and
the (possibly chunked) body: the error of whichever step failed, or the response
body and header. -/
abbrev Backend := Nat → Header → List Byte → Except String (List Byte × Header)

/-- The method `Request.Do`: one FastCGI request over a fresh connection. `usePool` is not
used by the Go function either. -/
def Request.Do (tbl : Char → Char) (r : Request) (backend : Backend) (n : Nat)
    (request : String) (headers : Header) (body : List Byte) (_usePool : Bool) :
    Except String (List Byte × Header) :=
  backend n (r.requestParams tbl request headers body.length) body

/-! ## stream.go -/

/-- The options `TargetOptions` of `config.go`. -/
structure TargetOptions where
  Host : String
  Port : Int
  Name : String
  ScriptPath : String
  ScriptName : String
  ClientIP : String
  ReturnError : Bool
deriving DecidableEq, Repr

/-- The stream handler (its logger left out). -/
structure StreamHandler where
  PortalOptions : TargetOptions
deriving DecidableEq, Repr

/-- One call of `Request.Do` as `handleData` made it: the parameter set the call
builds, the body and the `usePool` flag. -/
structure DoCall where
  params : Header
  body : List Byte
  usePool : Bool
deriving DecidableEq, Repr

/-- Lines 29 to 50 of `handleData`: the requester configuration for a peer address
and the metadata. -/
def StreamHandler.clientConfig (s : StreamHandler) (addr : String) (headers : Header) :
    Config :=
  let hp : String × String :=
    match splitHostPort addr with
    | some (host, port) => (host, port)
    | none => (s.PortalOptions.ClientIP, "9985")
  let forwardedFor := headers.get "x-forwarded-for"
  let host : String :=
    match forwardedFor with
    | some (v :: _) => String.mk ((stringsSplit ',' v.data).headD [])
    | _ => hp.1
  { Host := s.PortalOptions.Host
    Port := s.PortalOptions.Port
    ScriptPath := s.PortalOptions.ScriptPath
    ScriptName := s.PortalOptions.ScriptName
    ClientIP := host
    ClientPort := hp.2 }

/-- The retry loop of `handleData` (lines 67 to 88) from the counter value `i`, with
the calls made so far. -/
def handleDataLoop (tbl : Char → Char) (r : Request) (backend : Backend) (method : String)
    (headers : Header) (data : List Byte) (i : Nat) (calls : List DoCall) :
    Except String (List Byte × Header) × List DoCall :=
  let call : DoCall :=
    { params := r.requestParams tbl method headers data.length
      body := data
      usePool := decide (i < 2) }
  match r.Do tbl backend calls.length method headers data (decide (i < 2)) with
  | .error err =>
    if i < 3 then handleDataLoop tbl r backend method headers data (i + 1) (calls ++ [call])
    else (.error ("failed to make FCGI request: " ++ err), calls ++ [call])
  | .ok res => (.ok res, calls ++ [call])
termination_by 3 - i
decreasing_by omega

/-- The method `StreamHandler.handleData`: the result, and the calls of `Request.Do` in the
order they were made. -/
def StreamHandler.handleData (tbl : Char → Char) (s : StreamHandler) (backend : Backend)
    (method addr : String) (headers : Header) (data : List Byte) :
    Except String (List Byte × Header) × List DoCall :=
  handleDataLoop tbl (MakeRequest (s.clientConfig addr headers)) backend method headers data 0 []

/-- The errors an `io.Reader` hands out. -/
inductive ReadError where
  | EOF
  | ErrUnexpectedEOF
  | other (msg : String)
deriving DecidableEq, Repr

/-- An inbound stream as an `io.Reader`: the bytes it still delivers, and the error
`Read` returns once they are used up (`EOF` for a stream that simply ends). -/
structure Reader where
  data : List Byte
  endErr : ReadError
deriving DecidableEq, Repr

/-- Go's `io.ReadFull(r, buf)` with `len(buf) = n`: exactly `n` bytes, or an error
when the stream gives out first; an `EOF` after some but not all bytes is
`ErrUnexpectedEOF`. The second component is the reader afterwards. -/
def readFull (r : Reader) (n : Nat) : Except ReadError (List Byte) × Reader :=
  if n ≤ r.data.length then
    (.ok (r.data.take n), { r with data := r.data.drop n })
  else
    (.error (if 0 < r.data.length ∧ r.endErr = ReadError.EOF then ReadError.ErrUnexpectedEOF
      else r.endErr), { r with data := [] })

/-- Go's `binary.BigEndian.Uint32` on a slice of at least four bytes. -/
def bigEndianUint32 (b : List Byte) : Nat :=
  (b.getD 0 0).val * 2 ^ 24 + (b.getD 1 0).val * 2 ^ 16 + (b.getD 2 0).val * 2 ^ 8
    + (b.getD 3 0).val

/-- Go's `binary.BigEndian.PutUint32` for a `uint32` value `v`: the four bytes. -/
def bigEndianPutUint32 (v : Nat) : List Byte :=
  [Fin.ofNat (v / 2 ^ 24), Fin.ofNat (v / 2 ^ 16), Fin.ofNat (v / 2 ^ 8), Fin.ofNat v]

/-- An error with the message `errors.WithMessage` put in front of its cause. -/
structure RecvError where
  msg : String
  cause : ReadError
deriving DecidableEq, Repr

/-- The method `StreamHandler.recvMsg`: reads one framed message. The header is a `[5]byte`
array, so `header[0]` and `header[1:]` always exist. -/
def StreamHandler.recvMsg (_s : StreamHandler) (r : Reader) : Except RecvError (List Byte) :=
  match readFull r 5 with
  | (.error err, _) => .error { msg := "failed to read grpc header", cause := err }
  | (.ok header, r1) =>
    let length := bigEndianUint32 (header.drop 1)
    if length = 0 then .ok []
    else
      match readFull r1 length with
      | (.error err, _) =>
        .error { msg := "failed to read message body"
                 cause := if err = ReadError.EOF then ReadError.ErrUnexpectedEOF else err }
      | (.ok msg, _) => .ok msg

/-- The function `copyHeaders`: a fresh map with the bindings of the metadata. -/
def copyHeaders (md : Header) : Header :=
  (GoMap.entries md).foldl (fun acc kv => acc.set kv.1 kv.2) []

/-- A gRPC status code, `codes.Code` (a `uint32`). -/
abbrev Code := Nat

/-- The code `codes.OK`. -/
def codes.OK : Code := 0

/-- The code `codes.Unknown`. -/
def codes.Unknown : Code := 2

/-- The code `codes.NotFound`. -/
def codes.NotFound : Code := 5

/-- The code `codes.Internal`. -/
def codes.Internal : Code := 13

/-- The code `codes.Unavailable`. -/
def codes.Unavailable : Code := 14

/-- The conversion `codes.Code(n)` of a Go `int`: the value modulo `2^32`. -/
def codes.ofInt (n : Int) : Code := (n % 2 ^ 32).toNat

/-- The method `codes.Code.String`: the name of a defined code, `Code(n)` otherwise. -/
def codes.String (c : Code) : String :=
  match c with
  | 0 => "OK"
  | 1 => "Canceled"
  | 2 => "Unknown"
  | 3 => "InvalidArgument"
  | 4 => "DeadlineExceeded"
  | 5 => "NotFound"
  | 6 => "AlreadyExists"
  | 7 => "PermissionDenied"
  | 8 => "ResourceExhausted"
  | 9 => "FailedPrecondition"
  | 10 => "Aborted"
  | 11 => "OutOfRange"
  | 12 => "Unimplemented"
  | 13 => "Internal"
  | 14 => "Unavailable"
  | 15 => "DataLoss"
  | 16 => "Unauthenticated"
  | n => "Code(" ++ toString n ++ ")"

/-- The function `getErrorCode`: the code and whether the error result is non-nil; `none` is the
panic of `hr["X-Grpc-Error-Code"][0]` on a stored slice without elements. -/
def getErrorCode (hr : Header) : Option (Code × Bool) :=
  match hr.get "X-Grpc-Error-Code" with
  | none => some (codes.Unknown, false)
  | some vs =>
    match vs.head? with
    | none => none
    | some v =>
      match atoi v with
      | none => some (codes.Internal, true)
      | some code => some (codes.ofInt code, false)

/-- The function `getErrorDescription`. The second case of the Go switch is
`len(hr["X-Grpc-Error-Description"]) == 0`, the default case returns element 0. -/
def getErrorDescription (errorCode : Code) (hr : Header) : String :=
  if errorCode = codes.Internal then "Internal service error"
  else
    match hr.get "X-Grpc-Error-Description" with
    | some (d :: _) => d
    | _ => "Description of error has not been transfered"

/-- The test of line 159: `X-Grpc-Status` is stored, has an element, and element 0
is `ERROR`. -/
def isErrorStatus (resHeaders : Header) : Bool :=
  (resHeaders.get "X-Grpc-Status").isSome
    && decide (0 < sliceLen (resHeaders.get "X-Grpc-Status"))
    && decide (sliceFirst (resHeaders.get "X-Grpc-Status") = some "ERROR")

/-- What the handler hands to the server transport for the caller: a message
(`t.Write` with the 5-byte header and the data) or a status (`t.WriteStatus`). -/
inductive Written where
  | message (header : List Byte) (data : List Byte)
  | status (code : Code) (msg : String)
deriving DecidableEq, Repr

/-- A finished run of `HandleStream`: what was written to the caller, in order, and
the calls of `Request.Do`, in order. A `t.Write` that returns an error counts as
having written nothing. -/
structure Outcome where
  written : List Written
  calls : List DoCall
deriving DecidableEq, Repr

/-- The metadata `HandleStream` passes on (lines 130 to 140): a copy of the inbound
metadata, with the generated request id under `global_request_id` unless the
metadata has a value there. -/
def streamHeaders (requestId : String) (md : Header) : Header :=
  let headers := copyHeaders md
  if sliceLen (headers.get "global_request_id") ≠ 0 then headers
  else headers.set "global_request_id" [requestId]

/-- The method `StreamHandler.HandleStream`. `requestId` is the value of `getRequestId()` (clock
and random source), `md` the inbound metadata, `remoteAddr` the peer address,
`method` the method of the stream, `ts` the stream as a reader, and `writeFails`
says whether `t.Write` returns an error. `none` is a run-time panic. -/
def StreamHandler.HandleStream (tbl : Char → Char) (s : StreamHandler) (backend : Backend)
    (writeFails : Bool) (requestId : String) (md : Header) (remoteAddr method : String)
    (ts : Reader) : Option Outcome :=
  let headers := streamHeaders requestId md
  match s.recvMsg ts with
  | .error _ =>
    some { written := [Written.status codes.Unknown "Failed to parse message"], calls := [] }
  | .ok data =>
    match s.handleData tbl backend method remoteAddr headers data with
    | (.error _, calls) =>
      some { written := [Written.status codes.Unavailable "Failed to send a message"]
             calls := calls }
    | (.ok (returnData, resHeaders), calls) =>
      if isErrorStatus resHeaders then
        -- line 160: the argument of the logging call
        match sliceFirst (resHeaders.get "X-Grpc-Error-Description") with
        | none => none
        | some _ =>
          match getErrorCode resHeaders with
          | none => none
          | some (errorCode, _) =>
            if s.PortalOptions.ReturnError then
              some { written :=
                       [Written.status errorCode (getErrorDescription errorCode resHeaders)]
                     calls := calls }
            else
              some { written := [Written.status errorCode (codes.String errorCode)]
                     calls := calls }
      else
        let header : List Byte := 0 :: bigEndianPutUint32 (returnData.length % 2 ^ 32)
        if writeFails then
          some { written := [Written.status codes.Unknown "Failed to send message back"]
                 calls := calls }
        else
          some { written := [Written.message header returnData, Written.status codes.OK ""]
                 calls := calls }

/-! ## Definitions the statements use -/

/-- The wording of the specification for `convert` before lower-casing, read on
every character: a hyphen in front of each upper-case ASCII letter. -/
def hyphenBeforeUpper : List Char → List Char
  | [] => []
  | c :: cs =>
    if isUpperAZ c then '-' :: c :: hyphenBeforeUpper cs else c :: hyphenBeforeUpper cs

/-- The call record of the loop at counter `i`. -/
def loopCall (tbl : Char → Char) (r : Request) (method : String) (headers : Header)
    (data : List Byte) (i : Nat) : DoCall :=
  { params := r.requestParams tbl method headers data.length
    body := data
    usePool := decide (i < 2) }

/-- The backend response `HandleStream` works on: the result of `handleData` for the
message read from the stream, when the message could be read and a call of
`Request.Do` succeeded. -/
def backendResponse (tbl : Char → Char) (s : StreamHandler) (backend : Backend)
    (requestId : String) (md : Header) (remoteAddr method : String) (ts : Reader) :
    Option (List Byte × Header) :=
  match s.recvMsg ts with
  | .error _ => none
  | .ok data =>
    match (s.handleData tbl backend method remoteAddr (streamHeaders requestId md) data).1 with
    | .error _ => none
    | .ok res => some res

/-- The character of the decimal digit `d`. -/
def digitChar (d : Nat) : Char := Char.ofNat (48 + d)

/-- The number the decimal digits `ds` denote, most significant digit first. -/
def decimalValue (ds : List Nat) : Nat := Nat.ofDigits 10 ds.reverse

/-- A decimal integer in the sense of the specification: `v` is an optional sign
followed by the decimal digits `ds`, at least one, most significant first, and `n`
is the number they denote. -/
def IsDecimal (v : String) (n : Int) : Prop :=
  ∃ (sign : List Char) (ds : List Nat),
    (sign = [] ∨ sign = ['+'] ∨ sign = ['-']) ∧ ds ≠ [] ∧ (∀ d ∈ ds, d < 10)
      ∧ v.data = sign ++ ds.map digitChar
      ∧ n = if sign = ['-'] then -(decimalValue ds : Int)
            else (decimalValue ds : Int)

/-- The names of the fixed CGI parameters. -/
def fixedNames : List String :=
  ["GATEWAY_INTERFACE", "REQUEST_METHOD", "SCRIPT_FILENAME", "SCRIPT_NAME", "QUERY_STRING",
   "REQUEST_URI", "DOCUMENT_URI", "SERVER_SOFTWARE", "REMOTE_ADDR", "REMOTE_PORT",
   "SERVER_ADDR", "SERVER_PORT", "SERVER_NAME", "SERVER_PROTOCOL", "CONTENT_TYPE",
   "CONTENT_LENGTH"]

/-! ## Example inputs -/

/-- A stream handler used in the examples. -/
def exampleHandler (returnError : Bool) : StreamHandler :=
  { PortalOptions :=
      { Host := "127.0.0.1", Port := 9000, Name := "portal", ScriptPath := "/var/www",
        ScriptName := "index.php", ClientIP := "10.9.9.9", ReturnError := returnError } }

/-- The frame of the four-byte message `00 01 02 03`. -/
def exampleFrame : Reader :=
  { data := [0, 0, 0, 0, 4, 0, 1, 2, 3], endErr := ReadError.EOF }

/-- A backend that answers every request with the given body and header. -/
def answering (body : List Byte) (hdr : Header) : Backend := fun _ _ _ => .ok (body, hdr)

/-- A response body of `2^32` zero bytes. -/
def fourGiBBody : List Byte := List.replicate 4294967296 0

/-- A backend that refuses the first `k` connections and answers every later request
with an empty body and, as response header, the parameter set it was given. -/
def echoAfter (k : Nat) : Backend := fun n params _ =>
  if n < k then .error "connection refused" else .ok ([], params)

/-! ## The method name (C1) -/

theorem regtransformReplaceAll_some {c : Char} {cs g1 rest : List Char} {g2 : Char}
    (h : regtransformMatch (c :: cs) = some (g1, g2, rest)) :
    regtransformReplaceAll (c :: cs) = g1 ++ '-' :: g2 :: regtransformReplaceAll rest := by
  rw [regtransformReplaceAll]
  split
  · rename_i heq
    rw [h] at heq
    cases heq
    rfl
  · rename_i heq
    rw [h] at heq
    cases heq

theorem regtransformReplaceAll_none {c : Char} {cs : List Char}
    (h : regtransformMatch (c :: cs) = none) :
    regtransformReplaceAll (c :: cs) = c :: regtransformReplaceAll cs := by
  rw [regtransformReplaceAll]
  split
  · rename_i heq
    rw [h] at heq
    cases heq
  · rfl

theorem regtransformReplaceAll_eq (s : List Char) :
    regtransformReplaceAll s = hyphenBeforeUpper s := by
  generalize h : s.length = n
  induction n using Nat.strong_induction_on generalizing s with
  | _ n ih =>
    subst h
    match s with
    | [] => simp [regtransformReplaceAll, hyphenBeforeUpper]
    | [a] =>
      by_cases ha : isUpperAZ a = true
      · have hm : regtransformMatch [a] = some ([], a, []) := by simp [regtransformMatch, ha]
        rw [regtransformReplaceAll_some hm]
        simp [hyphenBeforeUpper, ha, regtransformReplaceAll]
      · have hm : regtransformMatch [a] = none := by simp [regtransformMatch, ha]
        rw [regtransformReplaceAll_none hm]
        simp [hyphenBeforeUpper, ha, regtransformReplaceAll]
    | a :: b :: rest =>
      have h1 := ih (b :: rest).length (by simp) (b :: rest) rfl
      have h2 := ih rest.length (by simp; omega) rest rfl
      by_cases ha : isUpperAZ a = true
      · have hm : regtransformMatch (a :: b :: rest) = some ([], a, b :: rest) := by
          simp [regtransformMatch, ha]
        rw [regtransformReplaceAll_some hm, h1]
        simp [hyphenBeforeUpper, ha]
      · by_cases hb : isUpperAZ b = true
        · have hm : regtransformMatch (a :: b :: rest) = some ([a], b, rest) := by
            simp [regtransformMatch, ha, hb]
          rw [regtransformReplaceAll_some hm, h2]
          simp [hyphenBeforeUpper, ha, hb]
        · have hm : regtransformMatch (a :: b :: rest) = none := by
            simp [regtransformMatch, ha, hb]
          rw [regtransformReplaceAll_none hm, h1]
          simp [hyphenBeforeUpper, ha, hb]

theorem convert_data (tbl : Char → Char) (r : Request) (request : String) :
    (r.convert tbl request).data
      = (hyphenBeforeUpper request.data).map (unicodeToLower tbl) := by
  simp [Request.convert, stringsToLower, regtransformReplaceAll_eq]

theorem convert_eq_mk (tbl : Char → Char) (r : Request) (request : String) :
    r.convert tbl request
      = String.mk ((hyphenBeforeUpper request.data).map (unicodeToLower tbl)) := by
  simp [Request.convert, stringsToLower, regtransformReplaceAll_eq]

/-- C1, as amended: for every method name `Request.convert` returns the name with a
hyphen inserted before every upper-case ASCII letter, the first character included,
then lower-cased; `GetUserInfo` gives `-get-user-info`, `URL` gives `-u-r-l`,
`fooBar` gives `foo-bar` and `A` gives `-a`. -/
theorem convert_hyphen_before_every_upper (tbl : Char → Char) (r : Request)
    (request : String) :
    (r.convert tbl request).data
        = stringsToLower tbl (hyphenBeforeUpper request.data)
      ∧ r.convert tbl "GetUserInfo" = "-get-user-info"
      ∧ r.convert tbl "URL" = "-u-r-l"
      ∧ r.convert tbl "fooBar" = "foo-bar"
      ∧ r.convert tbl "A" = "-a" := by
  refine ⟨convert_data tbl r request, ?_, ?_, ?_, ?_⟩ <;>
  · rw [convert_eq_mk]
    rfl

/-- C1 as stated fails: for no case table does `convert` send `GetUserInfo` to
`get-user-info`. -/
theorem convert_GetUserInfo_not_as_claimed :
    ¬ ∃ (tbl : Char → Char) (r : Request), r.convert tbl "GetUserInfo" = "get-user-info" := by
  rintro ⟨tbl, r, h⟩
  rw [convert_eq_mk] at h
  have h2 := congrArg String.length h
  have h3 : (String.mk (List.map (unicodeToLower tbl)
      (hyphenBeforeUpper "GetUserInfo".data))).length = 14 := rfl
  rw [h3] at h2
  exact absurd h2 (by decide)

/-! ## The retry loop (C2) -/

theorem handleDataLoop_ok {tbl : Char → Char} {r : Request} {backend : Backend}
    {method : String} {headers : Header} {data : List Byte} {i : Nat} {calls : List DoCall}
    (res : List Byte × Header)
    (h : r.Do tbl backend calls.length method headers data (decide (i < 2)) = .ok res) :
    handleDataLoop tbl r backend method headers data i calls
      = (.ok res, calls ++ [loopCall tbl r method headers data i]) := by
  rw [handleDataLoop]
  simp only [h, loopCall]

theorem handleDataLoop_retry {tbl : Char → Char} {r : Request} {backend : Backend}
    {method : String} {headers : Header} {data : List Byte} {i : Nat} {calls : List DoCall}
    (err : String)
    (h : r.Do tbl backend calls.length method headers data (decide (i < 2)) = .error err)
    (hi : i < 3) :
    handleDataLoop tbl r backend method headers data i calls
      = handleDataLoop tbl r backend method headers data (i + 1)
          (calls ++ [loopCall tbl r method headers data i]) := by
  rw [handleDataLoop]
  simp only [h, loopCall, hi, if_true]

theorem handleDataLoop_giveup {tbl : Char → Char} {r : Request} {backend : Backend}
    {method : String} {headers : Header} {data : List Byte} {i : Nat} {calls : List DoCall}
    (err : String)
    (h : r.Do tbl backend calls.length method headers data (decide (i < 2)) = .error err)
    (hi : ¬ i < 3) :
    handleDataLoop tbl r backend method headers data i calls
      = (.error ("failed to make FCGI request: " ++ err),
          calls ++ [loopCall tbl r method headers data i]) := by
  rw [handleDataLoop]
  simp only [h, loopCall, hi, if_false]

/-- The calls the loop adds: at least one, at most `4 - i`, each with the parameter
set of `Request.requestParams` and the message as body. -/
theorem handleDataLoop_calls (tbl : Char → Char) (r : Request) (backend : Backend)
    (method : String) (headers : Header) (data : List Byte) (i : Nat) (calls : List DoCall) :
    ∃ extra : List DoCall,
      (handleDataLoop tbl r backend method headers data i calls).2 = calls ++ extra
        ∧ extra ≠ []
        ∧ (extra.length + i ≤ 4 ∨ extra.length = 1)
        ∧ ∀ c ∈ extra, c.params = r.requestParams tbl method headers data.length
            ∧ c.body = data := by
  generalize hk : 3 - i = k
  induction k generalizing i calls with
  | zero =>
    cases hdo : r.Do tbl backend calls.length method headers data (decide (i < 2)) with
    | error err =>
      rw [handleDataLoop_giveup err hdo (by omega)]
      refine ⟨[loopCall tbl r method headers data i], rfl, by simp, ?_, ?_⟩
      · right
        rfl
      · simp [loopCall]
    | ok res =>
      rw [handleDataLoop_ok res hdo]
      refine ⟨[loopCall tbl r method headers data i], rfl, by simp, ?_, ?_⟩
      · right
        rfl
      · simp [loopCall]
  | succ k ih =>
    cases hdo : r.Do tbl backend calls.length method headers data (decide (i < 2)) with
    | error err =>
      rw [handleDataLoop_retry err hdo (by omega)]
      obtain ⟨extra, h1, h2, h3, h4⟩ :=
        ih (i + 1) (calls ++ [loopCall tbl r method headers data i]) (by omega)
      refine ⟨loopCall tbl r method headers data i :: extra, ?_, by simp, ?_, ?_⟩
      · rw [h1]
        simp
      · left
        simp only [List.length_cons]
        omega
      · intro c hc
        rcases List.mem_cons.mp hc with rfl | hc
        · simp [loopCall]
        · exact h4 c hc
    | ok res =>
      rw [handleDataLoop_ok res hdo]
      refine ⟨[loopCall tbl r method headers data i], rfl, by simp, ?_, ?_⟩
      · right
        rfl
      · simp [loopCall]

/-- C2 at the failing input: against a backend that refuses every connection,
`handleData` calls `Request.Do` four times before it returns the error, and
against a backend that refuses the first three connections only, it returns the
response of the fourth call. -/
theorem handleData_makes_a_fourth_call (tbl : Char → Char) (s : StreamHandler)
    (method addr : String) (headers : Header) (data : List Byte) :
    ((s.handleData tbl (fun _ _ _ => .error "connection refused")
        method addr headers data).2.length = 4
      ∧ (s.handleData tbl (fun _ _ _ => .error "connection refused")
        method addr headers data).1
          = .error "failed to make FCGI request: connection refused")
    ∧ ((s.handleData tbl (fun n _ _ => if n < 3 then .error "connection refused"
          else .ok ([1], [])) method addr headers data).2.length = 4
      ∧ (s.handleData tbl (fun n _ _ => if n < 3 then .error "connection refused"
          else .ok ([1], [])) method addr headers data).1 = .ok ([1], [])) := by
  constructor
  · unfold StreamHandler.handleData
    rw [handleDataLoop_retry "connection refused" (by rfl) (by decide)]
    rw [handleDataLoop_retry "connection refused" (by rfl) (by decide)]
    rw [handleDataLoop_retry "connection refused" (by rfl) (by decide)]
    rw [handleDataLoop_giveup "connection refused" (by rfl) (by decide)]
    simp
  · unfold StreamHandler.handleData
    rw [handleDataLoop_retry "connection refused" (by simp [Request.Do]) (by decide)]
    rw [handleDataLoop_retry "connection refused" (by simp [Request.Do]) (by decide)]
    rw [handleDataLoop_retry "connection refused" (by simp [Request.Do]) (by decide)]
    rw [handleDataLoop_ok ([1], []) (by simp [Request.Do])]
    simp

/-! ## The paths of the stream handler -/

theorem HandleStream_recv_error {tbl : Char → Char} {s : StreamHandler} {backend : Backend}
    {writeFails : Bool} {requestId : String} {md : Header} {remoteAddr method : String}
    {ts : Reader} (e : RecvError) (h : s.recvMsg ts = .error e) :
    s.HandleStream tbl backend writeFails requestId md remoteAddr method ts
      = some { written := [Written.status codes.Unknown "Failed to parse message"]
               calls := [] } := by
  simp [StreamHandler.HandleStream, h]

theorem HandleStream_unavailable {tbl : Char → Char} {s : StreamHandler} {backend : Backend}
    (writeFails : Bool) {requestId : String} {md : Header} {remoteAddr method : String}
    {ts : Reader} (data : List Byte) (h : s.recvMsg ts = .ok data)
    (hb : backendResponse tbl s backend requestId md remoteAddr method ts = none) :
    (s.HandleStream tbl backend writeFails requestId md remoteAddr method ts).map
        Outcome.written
      = some [Written.status codes.Unavailable "Failed to send a message"] := by
  simp only [backendResponse, h] at hb
  simp only [StreamHandler.HandleStream, h]
  rcases hd : s.handleData tbl backend method remoteAddr (streamHeaders requestId md) data
    with ⟨res, calls⟩
  rw [hd] at hb
  cases res with
  | error err => simp
  | ok v => simp at hb

theorem HandleStream_response_error {tbl : Char → Char} {s : StreamHandler}
    {backend : Backend} (writeFails : Bool) {requestId : String} {md : Header}
    {remoteAddr method : String} {ts : Reader} (b : List Byte) (hdr : Header)
    (hb : backendResponse tbl s backend requestId md remoteAddr method ts = some (b, hdr))
    (he : isErrorStatus hdr = true) :
    (s.HandleStream tbl backend writeFails requestId md remoteAddr method ts).map
        Outcome.written
      = match sliceFirst (hdr.get "X-Grpc-Error-Description") with
        | none => none
        | some _ =>
          match getErrorCode hdr with
          | none => none
          | some (errorCode, _) =>
            some [Written.status errorCode
              (if s.PortalOptions.ReturnError then getErrorDescription errorCode hdr
               else codes.String errorCode)] := by
  unfold backendResponse at hb
  unfold StreamHandler.HandleStream
  cases hr : s.recvMsg ts with
  | error e => simp [hr] at hb
  | ok data =>
    simp only [hr] at hb ⊢
    rcases hd : s.handleData tbl backend method remoteAddr (streamHeaders requestId md) data
      with ⟨res, calls⟩
    rw [hd] at hb
    cases res with
    | error err => simp at hb
    | ok v =>
      simp only [Option.some.injEq] at hb
      subst hb
      simp only [he, if_true]
      cases sliceFirst (GoMap.get hdr "X-Grpc-Error-Description") with
      | none => rfl
      | some d =>
        cases getErrorCode hdr with
        | none => rfl
        | some ce =>
          cases hro : s.PortalOptions.ReturnError <;> simp

theorem HandleStream_response_ok {tbl : Char → Char} {s : StreamHandler}
    {backend : Backend} (writeFails : Bool) {requestId : String} {md : Header}
    {remoteAddr method : String} {ts : Reader} (b : List Byte) (hdr : Header)
    (hb : backendResponse tbl s backend requestId md remoteAddr method ts = some (b, hdr))
    (he : isErrorStatus hdr = false) :
    (s.HandleStream tbl backend writeFails requestId md remoteAddr method ts).map
        Outcome.written
      = some (if writeFails then [Written.status codes.Unknown "Failed to send message back"]
          else [Written.message (0 :: bigEndianPutUint32 (b.length % 2 ^ 32)) b,
                Written.status codes.OK ""]) := by
  unfold backendResponse at hb
  unfold StreamHandler.HandleStream
  cases hr : s.recvMsg ts with
  | error e => simp [hr] at hb
  | ok data =>
    simp only [hr] at hb ⊢
    rcases hd : s.handleData tbl backend method remoteAddr (streamHeaders requestId md) data
      with ⟨res, calls⟩
    rw [hd] at hb
    cases res with
    | error err => simp at hb
    | ok v =>
      simp only [Option.some.injEq] at hb
      subst hb
      cases writeFails <;> simp [he]

theorem backendResponse_first_ok {tbl : Char → Char} {s : StreamHandler} {backend : Backend}
    {requestId : String} {md : Header} {remoteAddr method : String} {ts : Reader}
    (data : List Byte) (res : List Byte × Header) (h : s.recvMsg ts = .ok data)
    (hb : ∀ params, backend 0 params data = .ok res) :
    backendResponse tbl s backend requestId md remoteAddr method ts = some res := by
  unfold backendResponse
  simp only [h, StreamHandler.handleData]
  rw [handleDataLoop_ok res (by simp [Request.Do, hb])]

theorem getErrorCode_OK {hdr : Header} {e : Bool} (h : getErrorCode hdr = some (codes.OK, e)) :
    ∃ v n, sliceFirst (hdr.get "X-Grpc-Error-Code") = some v ∧ atoi v = some n
      ∧ codes.ofInt n = codes.OK := by
  unfold getErrorCode at h
  cases hg : hdr.get "X-Grpc-Error-Code" with
  | none => simp [hg, codes.Unknown, codes.OK] at h
  | some vs =>
    cases vs with
    | nil => simp [hg] at h
    | cons v t =>
      cases ha : atoi v with
      | none => simp [hg, ha, codes.Internal, codes.OK] at h
      | some n =>
        simp [hg, ha] at h
        exact ⟨v, n, by simp [sliceFirst], ha, h.1⟩

/-! ## The shape of the reply (C3, C4) -/

/-- C3, as amended: whenever the handler runs to the end (the backend response is
not an `X-Grpc-Status: ERROR` response whose description header is absent or empty
or whose code header is stored without a value), `HandleStream` writes either
exactly one framed message followed by status OK, or exactly one status and no
message; that status is not OK, except when the backend answered
`X-Grpc-Status: ERROR` with an `X-Grpc-Error-Code` that decodes to code 0. -/
theorem HandleStream_reply_shape (tbl : Char → Char) (s : StreamHandler) (backend : Backend)
    (writeFails : Bool) (requestId : String) (md : Header) (remoteAddr method : String)
    (ts : Reader)
    (hrun : ∀ b hdr, backendResponse tbl s backend requestId md remoteAddr method ts
        = some (b, hdr) → isErrorStatus hdr = true →
        sliceFirst (hdr.get "X-Grpc-Error-Description") ≠ none ∧ getErrorCode hdr ≠ none) :
    ∃ out, s.HandleStream tbl backend writeFails requestId md remoteAddr method ts = some out
      ∧ ((∃ header data,
            out.written = [Written.message header data, Written.status codes.OK ""])
        ∨ (∃ code msg, out.written = [Written.status code msg]
            ∧ (code = codes.OK →
                ∃ b hdr v n,
                  backendResponse tbl s backend requestId md remoteAddr method ts
                      = some (b, hdr)
                    ∧ isErrorStatus hdr = true
                    ∧ sliceFirst (hdr.get "X-Grpc-Error-Code") = some v
                    ∧ atoi v = some n ∧ codes.ofInt n = codes.OK))) := by
  cases hr : s.recvMsg ts with
  | error e =>
    refine ⟨_, HandleStream_recv_error e hr, Or.inr ⟨codes.Unknown, _, rfl, ?_⟩⟩
    intro h
    exact absurd h (by decide)
  | ok data =>
    cases hb : backendResponse tbl s backend requestId md remoteAddr method ts with
    | none =>
      have hw := HandleStream_unavailable writeFails data hr hb
      obtain ⟨out, ho, hw⟩ := Option.map_eq_some'.mp hw
      refine ⟨out, ho, Or.inr ⟨codes.Unavailable, _, hw, ?_⟩⟩
      intro h
      exact absurd h (by decide)
    | some res =>
      obtain ⟨b, hdr⟩ := res
      cases he : isErrorStatus hdr with
      | false =>
        have hw := HandleStream_response_ok writeFails b hdr hb he
        obtain ⟨out, ho, hw⟩ := Option.map_eq_some'.mp hw
        refine ⟨out, ho, ?_⟩
        cases writeFails with
        | false => exact Or.inl ⟨_, _, hw⟩
        | true =>
          refine Or.inr ⟨codes.Unknown, _, hw, ?_⟩
          intro h
          exact absurd h (by decide)
      | true =>
        have hw := HandleStream_response_error writeFails b hdr hb he
        obtain ⟨hd, hc⟩ := hrun b hdr hb he
        obtain ⟨d, hd⟩ := Option.ne_none_iff_exists'.mp hd
        obtain ⟨⟨c, e⟩, hc⟩ := Option.ne_none_iff_exists'.mp hc
        simp only [hd, hc] at hw
        obtain ⟨out, ho, hw⟩ := Option.map_eq_some'.mp hw
        refine ⟨out, ho, Or.inr ⟨c, _, hw, ?_⟩⟩
        intro h0
        subst h0
        obtain ⟨v, n, h1, h2, h3⟩ := getErrorCode_OK hc
        exact ⟨b, hdr, v, n, rfl, he, h1, h2, h3⟩

/-- C3 at a concrete run: the frame `00 00 00 00 04 00 01 02 03`, a backend that
answers with body `AA BB` and no control header. -/
theorem HandleStream_reply_shape_witness :
    ∃ out, (exampleHandler true).HandleStream id (answering [0xAA, 0xBB] []) false "1.1" []
        "192.168.1.1:5555" "GetUserInfo" exampleFrame = some out
      ∧ ((∃ header data,
            out.written = [Written.message header data, Written.status codes.OK ""])
        ∨ (∃ code msg, out.written = [Written.status code msg]
            ∧ (code = codes.OK →
                ∃ b hdr v n,
                  backendResponse id (exampleHandler true) (answering [0xAA, 0xBB] []) "1.1" []
                      "192.168.1.1:5555" "GetUserInfo" exampleFrame = some (b, hdr)
                    ∧ isErrorStatus hdr = true
                    ∧ sliceFirst (hdr.get "X-Grpc-Error-Code") = some v
                    ∧ atoi v = some n ∧ codes.ofInt n = codes.OK))) :=
  HandleStream_reply_shape id (exampleHandler true) (answering [0xAA, 0xBB] []) false "1.1" []
    "192.168.1.1:5555" "GetUserInfo" exampleFrame (by
      intro b hdr hb he
      rw [backendResponse_first_ok [0, 1, 2, 3] ([0xAA, 0xBB], []) (by rfl)
        (by intro p; rfl)] at hb
      simp only [Option.some.injEq, Prod.mk.injEq] at hb
      obtain ⟨-, rfl⟩ := hb
      exact absurd he (by decide))

/-- C3 as stated fails: a backend response `X-Grpc-Status: ERROR` with
`X-Grpc-Error-Code: 0` makes `HandleStream` write status OK and no message. -/
theorem HandleStream_status_OK_without_message :
    ((exampleHandler false).HandleStream id
        (answering [] [("X-Grpc-Status", ["ERROR"]), ("X-Grpc-Error-Code", ["0"]),
          ("X-Grpc-Error-Description", ["nothing wrong"])])
        false "1.1" [] "192.168.1.1:5555" "GetUserInfo" exampleFrame).map Outcome.written
      = some [Written.status codes.OK "OK"] := by
  rw [HandleStream_response_error false [] _
    (backendResponse_first_ok [0, 1, 2, 3] _ (by rfl) (by intro p; rfl)) (by decide)]
  rfl

/-- C4 at the failing inputs: for a backend response with `X-Grpc-Status: ERROR` whose
`X-Grpc-Error-Description` is absent or empty, `HandleStream` panics on line 160
(`resHeaders["X-Grpc-Error-Description"][0]`) and writes no status at all, whatever
`return_error` is. -/
theorem HandleStream_panics_without_description (tbl : Char → Char) (s : StreamHandler)
    (backend : Backend) (writeFails : Bool) (requestId : String) (md : Header)
    (remoteAddr method : String) (ts : Reader) (b : List Byte) (hdr : Header)
    (hb : backendResponse tbl s backend requestId md remoteAddr method ts = some (b, hdr))
    (he : isErrorStatus hdr = true)
    (hd : sliceLen (hdr.get "X-Grpc-Error-Description") = 0) :
    s.HandleStream tbl backend writeFails requestId md remoteAddr method ts = none := by
  have hw := HandleStream_response_error writeFails b hdr hb he
  have hf : sliceFirst (hdr.get "X-Grpc-Error-Description") = none := by
    unfold sliceLen at hd
    unfold sliceFirst
    rw [List.length_eq_zero.mp hd]
    rfl
  simp only [hf] at hw
  exact Option.map_eq_none'.mp hw

/-- C4 at a concrete run: the backend answers `X-Grpc-Status: ERROR`,
`X-Grpc-Error-Code: 5` and no description; nothing is written, with `return_error`
enabled and with it disabled. -/
theorem HandleStream_panics_without_description_witness :
    (exampleHandler true).HandleStream id
        (answering [] [("X-Grpc-Status", ["ERROR"]), ("X-Grpc-Error-Code", ["5"])])
        false "1.1" [] "192.168.1.1:5555" "GetUserInfo" exampleFrame = none
      ∧ (exampleHandler false).HandleStream id
        (answering [] [("X-Grpc-Status", ["ERROR"]), ("X-Grpc-Error-Code", ["5"])])
        false "1.1" [] "192.168.1.1:5555" "GetUserInfo" exampleFrame = none :=
  ⟨HandleStream_panics_without_description id (exampleHandler true) _ false "1.1" []
      "192.168.1.1:5555" "GetUserInfo" exampleFrame [] _
      (backendResponse_first_ok [0, 1, 2, 3] _ (by rfl) (by intro p; rfl)) (by decide)
      (by decide),
   HandleStream_panics_without_description id (exampleHandler false) _ false "1.1" []
      "192.168.1.1:5555" "GetUserInfo" exampleFrame [] _
      (backendResponse_first_ok [0, 1, 2, 3] _ (by rfl) (by intro p; rfl)) (by decide)
      (by decide)⟩

/-! ## The error code (C5) -/

theorem digitValue_digitChar {d : Nat} (h : d < 10) : digitValue (digitChar d) = some d := by
  interval_cases d <;> rfl

theorem digitChar_ne_sign {d : Nat} (h : d < 10) : digitChar d ≠ '-' ∧ digitChar d ≠ '+' := by
  interval_cases d <;> decide

theorem digitValue_some {c : Char} {d : Nat} (h : digitValue c = some d) :
    d < 10 ∧ c = digitChar d := by
  unfold digitValue at h
  have h0 : '0'.toNat = 48 := rfl
  have h9 : '9'.toNat = 57 := rfl
  rw [h0, h9] at h
  split at h
  · rename_i hc
    simp only [Option.some.injEq] at h
    subst h
    refine ⟨by omega, ?_⟩
    unfold digitChar
    rw [Nat.add_sub_cancel' hc.1, Char.ofNat_toNat]
  · cases h

theorem parseDigits_map (ds : List Nat) (acc : Nat) (h : ∀ d ∈ ds, d < 10) :
    parseDigits (ds.map digitChar) acc
      = some (acc * 10 ^ ds.length + decimalValue ds) := by
  induction ds generalizing acc with
  | nil => simp [parseDigits, decimalValue]
  | cons d t ih =>
    have hd : d < 10 := h d (List.mem_cons_self d t)
    have ht : ∀ x ∈ t, x < 10 := fun x hx => h x (List.mem_cons_of_mem d hx)
    simp only [List.map_cons, parseDigits, digitValue_digitChar hd, ih _ ht, decimalValue,
      List.reverse_cons, Nat.ofDigits_append, Nat.ofDigits_singleton, List.length_reverse,
      List.length_cons, Option.some.injEq]
    ring

theorem parseDigits_some {cs : List Char} {acc m : Nat} (h : parseDigits cs acc = some m) :
    ∃ ds : List Nat, (∀ d ∈ ds, d < 10) ∧ cs = ds.map digitChar := by
  induction cs generalizing acc with
  | nil => exact ⟨[], by simp, rfl⟩
  | cons c t ih =>
    unfold parseDigits at h
    cases hv : digitValue c with
    | none => simp [hv] at h
    | some d =>
      simp only [hv] at h
      obtain ⟨ds, h1, h2⟩ := ih h
      obtain ⟨hd, hc⟩ := digitValue_some hv
      refine ⟨d :: ds, ?_, by simp [hc, h2]⟩
      intro x hx
      rcases List.mem_cons.mp hx with rfl | hx
      · exact hd
      · exact h1 x hx

theorem atoiDigits_map (neg : Bool) (ds : List Nat) (hne : ds ≠ []) (h : ∀ d ∈ ds, d < 10) :
    atoiDigits neg (ds.map digitChar)
      = if neg then
          (if decimalValue ds ≤ 2 ^ 63
            then some (-(decimalValue ds : Int)) else none)
        else
          (if decimalValue ds < 2 ^ 63
            then some (decimalValue ds : Int) else none) := by
  unfold atoiDigits
  have hm : ds.map digitChar ≠ [] := by simpa using hne
  simp only [hm, if_false, parseDigits_map ds 0 h, Nat.zero_mul, Nat.zero_add]

theorem atoiDigits_some {neg : Bool} {cs : List Char} {n : Int}
    (h : atoiDigits neg cs = some n) :
    ∃ ds : List Nat, ds ≠ [] ∧ (∀ d ∈ ds, d < 10) ∧ cs = ds.map digitChar
      ∧ n = (if neg then -(decimalValue ds : Int)
            else (decimalValue ds : Int))
      ∧ -(2 : Int) ^ 63 ≤ n ∧ n < 2 ^ 63 := by
  have h0 := h
  unfold atoiDigits at h
  split at h
  · cases h
  · rename_i hne
    cases hp : parseDigits cs 0 with
    | none => simp [hp] at h
    | some m =>
      obtain ⟨ds, h1, h2⟩ := parseDigits_some hp
      subst h2
      have hds : ds ≠ [] := by
        intro hnil
        apply hne
        simp [hnil]
      rw [atoiDigits_map neg ds hds h1] at h0
      refine ⟨ds, hds, h1, rfl, ?_⟩
      cases neg with
      | true =>
        simp only [if_true] at h0 ⊢
        split at h0
        · rename_i hle
          simp only [Option.some.injEq] at h0
          subst h0
          refine ⟨rfl, ?_, ?_⟩ <;> omega
        · cases h0
      | false =>
        simp only [Bool.false_eq_true, if_false] at h0 ⊢
        split at h0
        · rename_i hlt
          simp only [Option.some.injEq] at h0
          subst h0
          refine ⟨rfl, ?_, ?_⟩ <;> omega
        · cases h0

/-- Go's `strconv.Atoi` succeeds exactly on the decimal integers of the 64-bit range, with
the number they denote. -/
theorem atoi_eq_some_iff (v : String) (n : Int) :
    atoi v = some n ↔ IsDecimal v n ∧ -(2 : Int) ^ 63 ≤ n ∧ n < 2 ^ 63 := by
  unfold atoi
  constructor
  · intro h
    cases hv : v.data with
    | nil => simp [hv, atoiChars] at h
    | cons c t =>
      rw [hv] at h
      unfold atoiChars at h
      by_cases hm : c = '-'
      · simp only [hm, if_true] at h
        obtain ⟨ds, h1, h2, h3, h4, h5⟩ := atoiDigits_some h
        refine ⟨⟨['-'], ds, by simp, h1, h2, by rw [hv, hm, h3]; rfl, ?_⟩, h5⟩
        simpa using h4
      · by_cases hp : c = '+'
        · simp only [hm, hp, if_true, if_false] at h
          have hpm : ¬ ('+' = '-') := by decide
          simp only [hpm, if_false] at h
          obtain ⟨ds, h1, h2, h3, h4, h5⟩ := atoiDigits_some h
          refine ⟨⟨['+'], ds, by simp, h1, h2, by rw [hv, hp, h3]; rfl, ?_⟩, h5⟩
          simpa using h4
        · simp only [hm, hp, if_false] at h
          obtain ⟨ds, h1, h2, h3, h4, h5⟩ := atoiDigits_some h
          refine ⟨⟨[], ds, by simp, h1, h2, by rw [hv, h3]; rfl, ?_⟩, h5⟩
          simpa using h4
  · rintro ⟨⟨sign, ds, hs, hne, hlt, hdata, hn⟩, hlo, hhi⟩
    obtain ⟨d, t, rfl⟩ := List.exists_cons_of_ne_nil hne
    have hd : d < 10 := hlt d (List.mem_cons_self d t)
    rcases hs with rfl | rfl | rfl
    · simp only [List.nil_append, List.map_cons] at hdata
      rw [hdata]
      unfold atoiChars
      simp only [(digitChar_ne_sign hd).1, (digitChar_ne_sign hd).2, if_false]
      rw [← List.map_cons, atoiDigits_map false (d :: t) hne hlt]
      have hn2 : ¬ ([] : List Char) = ['-'] := by simp
      simp only [hn2, if_false] at hn
      subst hn
      have : decimalValue (d :: t) < 2 ^ 63 := by omega
      simp only [Bool.false_eq_true, if_false]
      rw [if_pos this]
    · simp only [List.singleton_append] at hdata
      rw [hdata]
      unfold atoiChars
      have hpm : ¬ ('+' = '-') := by decide
      simp only [hpm, if_false, if_true]
      rw [atoiDigits_map false (d :: t) hne hlt]
      have hn2 : ¬ (['+'] : List Char) = ['-'] := by decide
      simp only [hn2, if_false] at hn
      subst hn
      have : decimalValue (d :: t) < 2 ^ 63 := by omega
      simp only [Bool.false_eq_true, if_false]
      rw [if_pos this]
    · simp only [List.singleton_append] at hdata
      rw [hdata]
      unfold atoiChars
      simp only [if_true]
      rw [atoiDigits_map true (d :: t) hne hlt]
      simp only [if_true] at hn ⊢
      subst hn
      have : decimalValue (d :: t) ≤ 2 ^ 63 := by omega
      rw [if_pos this]

/-- C5, as amended: `getErrorCode` returns UNKNOWN when the `X-Grpc-Error-Code` header
is missing; when the header has a first value, it returns INTERNAL with an error if
that value is not a decimal integer of the signed 64-bit range, and otherwise the
status code whose number is that integer modulo `2^32`, which is the integer itself
when it lies in `[0, 2^32)`; `5` gives NOT_FOUND. -/
theorem getErrorCode_spec (hr : Header) :
    (hr.get "X-Grpc-Error-Code" = none → getErrorCode hr = some (codes.Unknown, false))
      ∧ (∀ v, sliceFirst (hr.get "X-Grpc-Error-Code") = some v →
          ((¬ ∃ n, IsDecimal v n ∧ -(2 : Int) ^ 63 ≤ n ∧ n < 2 ^ 63) →
              getErrorCode hr = some (codes.Internal, true))
            ∧ (∀ n, IsDecimal v n → -(2 : Int) ^ 63 ≤ n → n < 2 ^ 63 →
              getErrorCode hr = some ((n % 2 ^ 32).toNat, false))
            ∧ (∀ n : Nat, IsDecimal v (n : Int) → n < 2 ^ 32 →
              getErrorCode hr = some (n, false)))
      ∧ getErrorCode [("X-Grpc-Error-Code", ["5"])] = some (codes.NotFound, false) := by
  refine ⟨?_, ?_, rfl⟩
  · intro h
    simp [getErrorCode, h]
  · intro v hv
    have hg : ∃ t, hr.get "X-Grpc-Error-Code" = some (v :: t) := by
      unfold sliceFirst at hv
      cases hx : hr.get "X-Grpc-Error-Code" with
      | none => simp [hx] at hv
      | some vs =>
        cases vs with
        | nil => simp [hx] at hv
        | cons a t =>
          simp [hx] at hv
          exact ⟨t, by rw [hv]⟩
    obtain ⟨t, hg⟩ := hg
    have hsome : ∀ n, IsDecimal v n → -(2 : Int) ^ 63 ≤ n → n < 2 ^ 63 →
        getErrorCode hr = some ((n % 2 ^ 32).toNat, false) := by
      intro n h1 h2 h3
      have ha : atoi v = some n := (atoi_eq_some_iff v n).mpr ⟨h1, h2, h3⟩
      simp [getErrorCode, hg, ha, codes.ofInt]
    refine ⟨?_, hsome, ?_⟩
    · intro hno
      have ha : atoi v = none := by
        cases hx : atoi v with
        | none => rfl
        | some n => exact absurd ⟨n, (atoi_eq_some_iff v n).mp hx⟩ hno
      simp [getErrorCode, hg, ha]
    · intro n h1 h2
      have h3 := hsome (n : Int) h1 (by omega) (by omega)
      rw [h3]
      have h4 : ((n : Int) % 2 ^ 32).toNat = n := by omega
      rw [h4]

/-- C5 as stated fails: `4294967301` is a decimal integer and `getErrorCode` returns the
code 5 for it, not a code with that number; `9223372036854775808` is a decimal integer
and `getErrorCode` returns INTERNAL with an error for it. -/
theorem getErrorCode_wraps_and_overflows :
    (∃ c, getErrorCode [("X-Grpc-Error-Code", ["4294967301"])] = some (c, false)
        ∧ IsDecimal "4294967301" 4294967301 ∧ (c : Int) ≠ 4294967301)
      ∧ (IsDecimal "9223372036854775808" 9223372036854775808
        ∧ getErrorCode [("X-Grpc-Error-Code", ["9223372036854775808"])]
            = some (codes.Internal, true)) := by
  refine ⟨⟨5, rfl, ⟨[], [4, 2, 9, 4, 9, 6, 7, 3, 0, 1], by simp, by simp, by decide, rfl, ?_⟩,
    by decide⟩, ⟨[], [9, 2, 2, 3, 3, 7, 2, 0, 3, 6, 8, 5, 4, 7, 7, 5, 8, 0, 8], by simp,
      by simp, by decide, rfl, ?_⟩, rfl⟩
  · norm_num [decimalValue, Nat.ofDigits]
  · norm_num [decimalValue, Nat.ofDigits]

/-! ## Frames (C6, C7) -/

theorem bigEndianUint32_put (v : Nat) (h : v < 2 ^ 32) :
    bigEndianUint32 (bigEndianPutUint32 v) = v := by
  simp only [bigEndianUint32, bigEndianPutUint32, List.getD_cons_zero, List.getD_cons_succ,
    Fin.ofNat, Fin.val_mk]
  omega

theorem readFull_enough (r : Reader) (n : Nat) (h : n ≤ r.data.length) :
    readFull r n = (.ok (r.data.take n), { r with data := r.data.drop n }) := by
  simp [readFull, h]

theorem readFull_short (r : Reader) (n : Nat) (h : r.data.length < n) :
    readFull r n
      = (.error (if 0 < r.data.length ∧ r.endErr = ReadError.EOF
          then ReadError.ErrUnexpectedEOF else r.endErr), { r with data := [] }) := by
  have h2 : ¬ n ≤ r.data.length := by omega
  simp [readFull, h2]

/-- C6: a payload `p` shorter than `2^32` bytes, framed with any flag byte and the
big-endian length as the reply path of `HandleStream` computes it, is read back by
`recvMsg` without error and unchanged, also when it is empty and whatever follows it
on the stream. -/
theorem recvMsg_roundtrip (s : StreamHandler) (flag : Byte) (p more : List Byte)
    (e : ReadError) (hL : p.length < 2 ^ 32) :
    s.recvMsg { data := flag :: bigEndianPutUint32 (p.length % 2 ^ 32) ++ p ++ more,
                endErr := e } = .ok p := by
  have hmod : p.length % 2 ^ 32 = p.length := Nat.mod_eq_of_lt hL
  rw [hmod]
  unfold StreamHandler.recvMsg
  rw [readFull_enough _ 5 (by simp [bigEndianPutUint32])]
  have htake : (flag :: bigEndianPutUint32 p.length ++ p ++ more).take 5
      = flag :: bigEndianPutUint32 p.length := by
    simp [bigEndianPutUint32]
  have hdrop : (flag :: bigEndianPutUint32 p.length ++ p ++ more).drop 5 = p ++ more := by
    simp [bigEndianPutUint32]
  simp only [htake, hdrop, List.drop_succ_cons, List.drop_zero, bigEndianUint32_put _ hL]
  by_cases h0 : p.length = 0
  · simp [h0, List.length_eq_zero.mp h0]
  · simp only [h0, if_false]
    rw [readFull_enough _ _ (by simp)]
    simp

/-- C6 at the payload `AA BB` with flag 0. -/
theorem recvMsg_roundtrip_witness :
    ([0xAA, 0xBB] : List Byte).length < 2 ^ 32
      ∧ (exampleHandler true).recvMsg
          { data := 0 :: bigEndianPutUint32 (([0xAA, 0xBB] : List Byte).length % 2 ^ 32)
              ++ [0xAA, 0xBB] ++ [], endErr := ReadError.EOF } = .ok [0xAA, 0xBB] :=
  ⟨by decide, recvMsg_roundtrip (exampleHandler true) 0 [0xAA, 0xBB] [] ReadError.EOF
    (by decide)⟩

/-- C7, as amended: on a successful exchange (a backend response that is not an
`X-Grpc-Status: ERROR` response, and a reply write that succeeds) with response body
`b`, `HandleStream` writes exactly one message, the 5-byte header followed by `b`,
and then status OK; the header is the flag byte 0 and the big-endian length
`len(b) mod 2^32`, which is the length of `b` when `b` is shorter than `2^32` bytes.
The body `AA BB` yields `00 00 00 00 02 AA BB`. -/
theorem HandleStream_success_frame (tbl : Char → Char) (s : StreamHandler)
    (backend : Backend) (requestId : String) (md : Header) (remoteAddr method : String)
    (ts : Reader) (b : List Byte) (hdr : Header)
    (hb : backendResponse tbl s backend requestId md remoteAddr method ts = some (b, hdr))
    (he : isErrorStatus hdr = false) :
    (∃ out header,
        s.HandleStream tbl backend false requestId md remoteAddr method ts = some out
          ∧ out.written = [Written.message header b, Written.status codes.OK ""]
          ∧ header.length = 5 ∧ header.head? = some 0
          ∧ bigEndianUint32 (header.drop 1) = b.length % 2 ^ 32
          ∧ (b.length < 2 ^ 32 → bigEndianUint32 (header.drop 1) = b.length))
      ∧ (b = [0xAA, 0xBB] →
          (s.HandleStream tbl backend false requestId md remoteAddr method ts).map
              Outcome.written
            = some [Written.message [0, 0, 0, 0, 2] [0xAA, 0xBB],
                Written.status codes.OK ""]) := by
  have hw := HandleStream_response_ok false b hdr hb he
  simp only [Bool.false_eq_true, if_false] at hw
  constructor
  · obtain ⟨out, ho, hw2⟩ := Option.map_eq_some'.mp hw
    have hlt : b.length % 2 ^ 32 < 2 ^ 32 := Nat.mod_lt _ (by decide)
    refine ⟨out, _, ho, hw2, by simp [bigEndianPutUint32], rfl, ?_, ?_⟩
    · simp only [List.drop_succ_cons, List.drop_zero]
      exact bigEndianUint32_put _ hlt
    · intro hL
      simp only [List.drop_succ_cons, List.drop_zero]
      rw [bigEndianUint32_put _ hlt]
      exact Nat.mod_eq_of_lt hL
  · intro hbb
    subst hbb
    rw [hw]
    rfl

/-- C7 at a concrete run: the frame of `00 01 02 03`, a backend that answers with the
body `AA BB`. -/
theorem HandleStream_success_frame_witness :
    (∃ out header,
        (exampleHandler true).HandleStream id (answering [0xAA, 0xBB] []) false "1.1" []
            "192.168.1.1:5555" "GetUserInfo" exampleFrame = some out
          ∧ out.written = [Written.message header [0xAA, 0xBB], Written.status codes.OK ""]
          ∧ header.length = 5 ∧ header.head? = some 0
          ∧ bigEndianUint32 (header.drop 1) = ([0xAA, 0xBB] : List Byte).length % 2 ^ 32
          ∧ (([0xAA, 0xBB] : List Byte).length < 2 ^ 32 →
              bigEndianUint32 (header.drop 1) = ([0xAA, 0xBB] : List Byte).length))
      ∧ (([0xAA, 0xBB] : List Byte) = [0xAA, 0xBB] →
          ((exampleHandler true).HandleStream id (answering [0xAA, 0xBB] []) false "1.1" []
              "192.168.1.1:5555" "GetUserInfo" exampleFrame).map Outcome.written
            = some [Written.message [0, 0, 0, 0, 2] [0xAA, 0xBB],
                Written.status codes.OK ""]) :=
  HandleStream_success_frame id (exampleHandler true) (answering [0xAA, 0xBB] []) "1.1" []
    "192.168.1.1:5555" "GetUserInfo" exampleFrame [0xAA, 0xBB] []
    (backendResponse_first_ok [0, 1, 2, 3] _ (by rfl) (by intro p; rfl)) (by decide)

theorem fourGiBBody_length : fourGiBBody.length = 4294967296 :=
  List.length_replicate _ _

/-- C7 as stated fails: for a response body of `2^32` bytes the exchange succeeds, the
single message carries the whole body, and the length declared in its header is 0. -/
theorem HandleStream_declared_length_wraps :
    ∃ header data,
      ((exampleHandler true).HandleStream id (answering fourGiBBody []) false "1.1" []
          "192.168.1.1:5555" "GetUserInfo" exampleFrame).map Outcome.written
        = some [Written.message header data, Written.status codes.OK ""]
      ∧ data.length = 4294967296
      ∧ bigEndianUint32 (header.drop 1) = 0
      ∧ bigEndianUint32 (header.drop 1) ≠ data.length := by
  have hw := @HandleStream_response_ok id (exampleHandler true)
    (answering fourGiBBody []) false "1.1" [] "192.168.1.1:5555" "GetUserInfo" exampleFrame
    fourGiBBody []
    (backendResponse_first_ok [0, 1, 2, 3] _ (by rfl) (by intro p; rfl)) (by decide)
  rw [fourGiBBody_length] at hw
  refine ⟨_, _, hw, fourGiBBody_length, by decide, ?_⟩
  rw [fourGiBBody_length]
  decide

/-! ## The CGI parameters and the client address (C8, C9) -/

theorem GoMap.get_set {α : Type} (m : GoMap α) (k : String) (v : α) (name : String) :
    (m.set k v).get name = if name = k then some v else m.get name := by
  unfold GoMap.get GoMap.set
  by_cases h : name = k
  · subst h
    simp [List.lookup]
  · have hb : (name == k) = false := by simpa using h
    simp [List.lookup, hb, h]

theorem GoMap.mem_entries {α : Type} (m : GoMap α) (k : String) (v : α) :
    (k, v) ∈ GoMap.entries m ↔ m.get k = some v := by
  induction m with
  | nil => simp [GoMap.entries, GoMap.get]
  | cons kv rest ih =>
    obtain ⟨k0, v0⟩ := kv
    have hget : GoMap.get ((k0, v0) :: rest) k
        = if k = k0 then some v0 else GoMap.get rest k := GoMap.get_set rest k0 v0 k
    rw [hget]
    simp only [GoMap.entries, List.mem_cons, Prod.mk.injEq, List.mem_filter, ih]
    by_cases h : k = k0
    · subst h
      simp
      constructor
      · intro h1
        rw [h1]
      · intro h1
        exact h1.symm
    · simp [h]

theorem append_left_injective (pre a b : String) (h : pre ++ a = pre ++ b) : a = b := by
  have hd := congrArg String.data h
  simp only [String.data_append] at hd
  exact String.ext (List.append_cancel_left hd)

theorem foldl_set_get_other {pre : String} (l : List (String × List String)) (base : Header)
    (name : String) (h : ∀ kv ∈ l, pre ++ kv.1 ≠ name) :
    (l.foldl (fun acc kv => GoMap.set acc (pre ++ kv.1) kv.2) base).get name
      = base.get name := by
  induction l generalizing base with
  | nil => rfl
  | cons kv t ih =>
    simp only [List.foldl_cons]
    rw [ih _ (fun x hx => h x (List.mem_cons_of_mem kv hx)), GoMap.get_set]
    have hne : name ≠ pre ++ kv.1 := fun e => h kv (List.mem_cons_self kv t) e.symm
    simp [hne]

theorem foldl_set_get_key {pre : String} (l : List (String × List String)) (base : Header)
    (k : String) (v : List String) (hmem : (k, v) ∈ l)
    (hfun : ∀ w, (k, w) ∈ l → w = v) :
    (l.foldl (fun acc kv => GoMap.set acc (pre ++ kv.1) kv.2) base).get (pre ++ k)
      = some v := by
  induction l generalizing base with
  | nil => cases hmem
  | cons kv t ih =>
    simp only [List.foldl_cons]
    by_cases ht : (k, v) ∈ t
    · exact ih _ ht (fun w hw => hfun w (List.mem_cons_of_mem kv hw))
    · have hkv : (k, v) = kv := by
        rcases List.mem_cons.mp hmem with h | h
        · exact h
        · exact absurd h ht
      subst hkv
      rw [foldl_set_get_other t _ (pre ++ k), GoMap.get_set]
      · simp
      · intro x hx he
        have hk : x.1 = k := append_left_injective pre _ _ he
        have hx2 : (k, x.2) ∈ t := by
          rw [← hk]
          exact hx
        have hv : x.2 = v := hfun x.2 (List.mem_cons_of_mem _ hx2)
        rw [hv] at hx2
        exact ht hx2

theorem requestParams_get_metadata (tbl : Char → Char) (r : Request) (request : String)
    (headers : Header) (size : Nat) (k : String) (v : List String)
    (h : headers.get k = some v) :
    (r.requestParams tbl request headers size).get ("X-GRPC-" ++ k) = some v := by
  unfold Request.requestParams
  apply foldl_set_get_key
  · exact (GoMap.mem_entries headers k v).mpr h
  · intro w hw
    have h2 := (GoMap.mem_entries headers k w).mp hw
    rw [h] at h2
    exact (Option.some.inj h2).symm

theorem requestParams_get_other (tbl : Char → Char) (r : Request) (request : String)
    (headers : Header) (size : Nat) (name : String)
    (h : ∀ k, headers.get k ≠ none → name ≠ "X-GRPC-" ++ k) :
    (r.requestParams tbl request headers size).get name
      = (r.getCgiParams [("r", r.convert tbl request)] size).get name := by
  unfold Request.requestParams
  apply foldl_set_get_other
  intro kv hkv he
  obtain ⟨k, v⟩ := kv
  have hg := (GoMap.mem_entries headers k v).mp hkv
  exact h k (by simp [hg]) he.symm

theorem not_metadata_name (name : String) (h : name.data.head? ≠ some 'X') (k : String) :
    name ≠ "X-GRPC-" ++ k := by
  intro he
  apply h
  rw [he, String.data_append]
  rfl

theorem fixedNames_head (name : String) (h : name ∈ fixedNames) :
    name.data.head? ≠ some 'X' := by
  simp only [fixedNames, List.mem_cons, List.mem_singleton, List.not_mem_nil, or_false] at h
  rcases h with h | h | h | h | h | h | h | h | h | h | h | h | h | h | h | h <;>
  · subst h
    decide

theorem requestParams_get_fixed (tbl : Char → Char) (r : Request) (request : String)
    (headers : Header) (size : Nat) (name : String) (h : name ∈ fixedNames) :
    (r.requestParams tbl request headers size).get name
      = (r.getCgiParams [("r", r.convert tbl request)] size).get name :=
  requestParams_get_other tbl r request headers size name
    (fun k _ => not_metadata_name name (fixedNames_head name h) k)

theorem stringsSplit_head (l : List Char) :
    (stringsSplit ',' l).headD [] = l.takeWhile (fun c => c != ',') := by
  induction l with
  | nil => rfl
  | cons c cs ih =>
    unfold stringsSplit
    by_cases hc : c = ','
    · simp [hc]
    · simp only [hc, if_false]
      have hb : (c != ',') = true := by simpa using hc
      have htw : (c :: cs).takeWhile (fun c => c != ',')
          = c :: cs.takeWhile (fun c => c != ',') := by
        simp only [List.takeWhile, hb]
      rw [htw, ← ih]
      cases stringsSplit ',' cs <;> rfl

theorem indexByte_split {c : Char} {l : List Char} {i : Nat} (h : indexByte c l = some i) :
    l = l.take i ++ c :: l.drop (i + 1) := by
  induction l generalizing i with
  | nil => cases h
  | cons x xs ih =>
    unfold indexByte at h
    by_cases hx : x = c
    · simp only [hx, if_true, Option.some.injEq] at h
      subst h
      simp [hx]
    · simp only [hx, if_false, Option.map_eq_some'] at h
      obtain ⟨j, hj, rfl⟩ := h
      have := ih hj
      simp only [List.take_succ_cons, List.drop_succ_cons, List.cons_append, List.cons.injEq,
        true_and]
      exact this

theorem lastIndexByte_split {c : Char} {l : List Char} {i : Nat}
    (h : lastIndexByte c l = some i) : l = l.take i ++ c :: l.drop (i + 1) := by
  induction l generalizing i with
  | nil => cases h
  | cons x xs ih =>
    unfold lastIndexByte at h
    cases hr : lastIndexByte c xs with
    | some j =>
      simp only [hr, Option.some.injEq] at h
      subst h
      have := ih hr
      simp only [List.take_succ_cons, List.drop_succ_cons, List.cons_append, List.cons.injEq,
        true_and]
      exact this
    | none =>
      simp only [hr] at h
      by_cases hx : x = c
      · simp only [hx, if_true, Option.some.injEq] at h
        subst h
        simp [hx]
      · simp [hx] at h

/-- What a successful `net.SplitHostPort` returns: the address is `host:port`, or
`[host]:port`. -/
theorem splitHostPort_some {addr host port : String}
    (h : splitHostPort addr = some (host, port)) :
    addr = host ++ ":" ++ port ∨ addr = "[" ++ host ++ "]:" ++ port := by
  unfold splitHostPort at h
  simp only at h
  cases hi : lastIndexByte ':' addr.data with
  | none => simp [hi] at h
  | some i =>
    simp only [hi] at h
    have hsplit := lastIndexByte_split hi
    by_cases hbr : addr.data.head? = some '['
    · simp only [hbr, if_true] at h
      cases he : indexByte ']' addr.data with
      | none => simp [he] at h
      | some e =>
        simp only [he] at h
        have hsplit2 := indexByte_split he
        split at h
        · cases h
        · split at h
          · rename_i hei
            split at h
            · cases h
            · split at h
              · cases h
              · simp only [Option.some.injEq, Prod.mk.injEq] at h
                obtain ⟨h1, h2⟩ := h
                right
                apply String.ext
                rw [← h1, ← h2]
                simp only [String.data_append]
                have he1 : 1 ≤ e := by
                  rcases Nat.eq_zero_or_pos e with h0 | h0
                  · subst h0
                    rw [hsplit2] at hbr
                    simp at hbr
                  · exact h0
                have htake : addr.data.take e = '[' :: (addr.data.take e).drop 1 := by
                  cases hd : addr.data with
                  | nil => simp [hd] at hbr
                  | cons a t =>
                    rw [hd] at hbr
                    simp only [List.head?_cons, Option.some.injEq] at hbr
                    subst hbr
                    obtain ⟨e2, rfl⟩ : ∃ e2, e = e2 + 1 := ⟨e - 1, by omega⟩
                    simp
                have hdrop : addr.data.drop (e + 1) = ':' :: addr.data.drop (i + 1) := by
                  rw [hei]
                  have hlen : i < addr.data.length := by
                    by_contra hlt
                    have h3 : addr.data.take i = addr.data := List.take_of_length_le (by omega)
                    have h4 := congrArg List.length hsplit
                    rw [h3] at h4
                    simp at h4
                  have h5 : addr.data.drop i
                      = (addr.data.take i ++ ':' :: addr.data.drop (i + 1)).drop i := by
                    rw [← hsplit]
                  rw [h5, List.drop_left' (by rw [List.length_take]; omega)]
                calc addr.data
                    = addr.data.take e ++ ']' :: addr.data.drop (e + 1) := hsplit2
                  _ = ('[' :: (addr.data.take e).drop 1) ++ ']' :: ':' :: addr.data.drop (i + 1) := by
                      rw [← htake, hdrop]
                  _ = _ := by
                      show _ = ("[".data ++ _ ++ "]:".data ++ _)
                      simp
          · cases h
    · simp only [hbr, if_false] at h
      split at h
      · cases h
      · split at h
        · cases h
        · split at h
          · cases h
          · simp only [Option.some.injEq, Prod.mk.injEq] at h
            obtain ⟨h1, h2⟩ := h
            left
            apply String.ext
            rw [← h1, ← h2]
            simp only [String.data_append]
            calc addr.data = addr.data.take i ++ ':' :: addr.data.drop (i + 1) := hsplit
              _ = _ := by
                show _ = (_ ++ ":".data ++ _)
                simp

theorem handleData_calls_params (tbl : Char → Char) (s : StreamHandler) (backend : Backend)
    (method addr : String) (headers : Header) (data : List Byte) :
    (s.handleData tbl backend method addr headers data).2 ≠ []
      ∧ ∀ c ∈ (s.handleData tbl backend method addr headers data).2,
          c.params.get "REMOTE_ADDR" = some [(s.clientConfig addr headers).ClientIP]
            ∧ c.params.get "REMOTE_PORT" = some [(s.clientConfig addr headers).ClientPort] := by
  unfold StreamHandler.handleData
  obtain ⟨extra, h1, h2, -, h4⟩ := handleDataLoop_calls tbl
    (MakeRequest (s.clientConfig addr headers)) backend method headers data 0 []
  rw [h1]
  refine ⟨by simpa using h2, ?_⟩
  intro c hc
  obtain ⟨hp, -⟩ := h4 c (by simpa using hc)
  rw [hp]
  constructor
  · rw [requestParams_get_fixed _ _ _ _ _ "REMOTE_ADDR" (by decide)]
    rfl
  · rw [requestParams_get_fixed _ _ _ _ _ "REMOTE_PORT" (by decide)]
    rfl

theorem handleDataLoop_congr (tbl : Char → Char) (r : Request) (b1 b2 : Backend)
    (method : String) (headers : Header) (data : List Byte)
    (h : ∀ n usePool, r.Do tbl b1 n method headers data usePool
      = r.Do tbl b2 n method headers data usePool)
    (i : Nat) (calls : List DoCall) :
    handleDataLoop tbl r b1 method headers data i calls
      = handleDataLoop tbl r b2 method headers data i calls := by
  generalize hk : 3 - i = k
  induction k generalizing i calls with
  | zero =>
    cases hdo : r.Do tbl b1 calls.length method headers data (decide (i < 2)) with
    | error err =>
      have hdo2 := hdo
      rw [h] at hdo2
      rw [handleDataLoop_giveup err hdo (by omega), handleDataLoop_giveup err hdo2 (by omega)]
    | ok res =>
      have hdo2 := hdo
      rw [h] at hdo2
      rw [handleDataLoop_ok res hdo, handleDataLoop_ok res hdo2]
  | succ k ih =>
    cases hdo : r.Do tbl b1 calls.length method headers data (decide (i < 2)) with
    | error err =>
      have hdo2 := hdo
      rw [h] at hdo2
      rw [handleDataLoop_retry err hdo (by omega), handleDataLoop_retry err hdo2 (by omega)]
      exact ih (i + 1) _ (by omega)
    | ok res =>
      have hdo2 := hdo
      rw [h] at hdo2
      rw [handleDataLoop_ok res hdo, handleDataLoop_ok res hdo2]

/-- The client address and port `handleData` puts into the requester configuration,
case by case. -/
theorem clientConfig_spec (s : StreamHandler) (addr : String) (headers : Header) :
    (∀ v vs, headers.get "x-forwarded-for" = some (v :: vs) →
        (s.clientConfig addr headers).ClientIP
          = String.mk (v.data.takeWhile (fun x => x != ',')))
      ∧ (sliceLen (headers.get "x-forwarded-for") = 0 →
          ∀ host port, splitHostPort addr = some (host, port) →
            (s.clientConfig addr headers).ClientIP = host)
      ∧ (sliceLen (headers.get "x-forwarded-for") = 0 →
          splitHostPort addr = none →
            (s.clientConfig addr headers).ClientIP = s.PortalOptions.ClientIP)
      ∧ (∀ host port, splitHostPort addr = some (host, port) →
          (s.clientConfig addr headers).ClientPort = port) := by
  refine ⟨?_, ?_, ?_, ?_⟩
  · intro v vs hv
    simp only [StreamHandler.clientConfig, hv, stringsSplit_head]
  · intro hlen host port hsp
    have hx : ∀ v vs, headers.get "x-forwarded-for" ≠ some (v :: vs) := by
      intro v vs he
      rw [he] at hlen
      simp [sliceLen] at hlen
    cases hg : headers.get "x-forwarded-for" with
    | none => simp only [StreamHandler.clientConfig, hsp, hg]
    | some l =>
      cases l with
      | nil => simp only [StreamHandler.clientConfig, hsp, hg]
      | cons v vs => exact absurd hg (hx v vs)
  · intro hlen hsp
    have hx : ∀ v vs, headers.get "x-forwarded-for" ≠ some (v :: vs) := by
      intro v vs he
      rw [he] at hlen
      simp [sliceLen] at hlen
    cases hg : headers.get "x-forwarded-for" with
    | none => simp only [StreamHandler.clientConfig, hsp, hg]
    | some l =>
      cases l with
      | nil => simp only [StreamHandler.clientConfig, hsp, hg]
      | cons v vs => exact absurd hg (hx v vs)
  · intro host port hsp
    simp only [StreamHandler.clientConfig, hsp]

/-- The parameter set `Request.Do` builds for the requester of `handleData` binds
`REMOTE_ADDR` and `REMOTE_PORT` to the client address and port of the configuration. -/
theorem requestParams_remote (tbl : Char → Char) (s : StreamHandler)
    (method addr : String) (headers : Header) (size : Nat) :
    ((MakeRequest (s.clientConfig addr headers)).requestParams tbl method headers size).get
          "REMOTE_ADDR" = some [(s.clientConfig addr headers).ClientIP]
      ∧ ((MakeRequest (s.clientConfig addr headers)).requestParams tbl method headers
          size).get "REMOTE_PORT" = some [(s.clientConfig addr headers).ClientPort] := by
  constructor
  · rw [requestParams_get_fixed _ _ _ _ _ "REMOTE_ADDR" (by decide)]
    rfl
  · rw [requestParams_get_fixed _ _ _ _ _ "REMOTE_PORT" (by decide)]
    rfl

/-- C8: there are a `REMOTE_ADDR` value and a `REMOTE_PORT` value such that (1) the
address is the part before the first comma of the first `x-forwarded-for` value when
the metadata has one, else the host of the peer address when `net.SplitHostPort`
accepts it, else the configured client IP, and the port is the port of the peer
address whenever it is accepted; with `x-forwarded-for: 10.0.0.1, 10.0.0.2` and the
peer `192.168.1.1:5555` they are `10.0.0.1` and `5555`; (2) `handleData` hands the
backend only parameter sets that carry these two values: two backends that answer
alike on every such request give the same run; (3) the backend is asked: one that
refuses the first `k` connections, `k` up to 3, and then answers with the parameter
set it was given, makes `handleData` return a parameter set with these two values;
(4) every recorded call carries them, and there is at least one; (5) an accepted
peer address reads `host:port` or `[host]:port`. -/
theorem handleData_remote_addr (tbl : Char → Char) (s : StreamHandler) (backend : Backend)
    (method addr : String) (headers : Header) (data : List Byte) :
    ∃ remoteAddr remotePort : String,
      ((∀ v vs, headers.get "x-forwarded-for" = some (v :: vs) →
            remoteAddr = String.mk (v.data.takeWhile (fun x => x != ',')))
        ∧ (sliceLen (headers.get "x-forwarded-for") = 0 →
            ∀ host port, splitHostPort addr = some (host, port) → remoteAddr = host)
        ∧ (sliceLen (headers.get "x-forwarded-for") = 0 →
            splitHostPort addr = none → remoteAddr = s.PortalOptions.ClientIP)
        ∧ (∀ host port, splitHostPort addr = some (host, port) → remotePort = port)
        ∧ (headers.get "x-forwarded-for" = some ["10.0.0.1, 10.0.0.2"] →
            addr = "192.168.1.1:5555" → remoteAddr = "10.0.0.1" ∧ remotePort = "5555"))
      ∧ (∀ b1 b2 : Backend,
          (∀ n params body, params.get "REMOTE_ADDR" = some [remoteAddr] →
              params.get "REMOTE_PORT" = some [remotePort] →
              b1 n params body = b2 n params body) →
          s.handleData tbl b1 method addr headers data
            = s.handleData tbl b2 method addr headers data)
      ∧ (∀ k, k ≤ 3 →
          ∃ params,
            (s.handleData tbl (echoAfter k) method addr headers data).1 = .ok ([], params)
              ∧ params.get "REMOTE_ADDR" = some [remoteAddr]
              ∧ params.get "REMOTE_PORT" = some [remotePort])
      ∧ ((s.handleData tbl backend method addr headers data).2 ≠ []
        ∧ ∀ c ∈ (s.handleData tbl backend method addr headers data).2,
            c.params.get "REMOTE_ADDR" = some [remoteAddr]
              ∧ c.params.get "REMOTE_PORT" = some [remotePort])
      ∧ (∀ host port, splitHostPort addr = some (host, port) →
          addr = host ++ ":" ++ port ∨ addr = "[" ++ host ++ "]:" ++ port) := by
  obtain ⟨h1, h2, h3, h4⟩ := clientConfig_spec s addr headers
  refine ⟨(s.clientConfig addr headers).ClientIP, (s.clientConfig addr headers).ClientPort,
    ⟨h1, h2, h3, h4, ?_⟩, ?_, ?_,
    handleData_calls_params tbl s backend method addr headers data,
    fun host port h => splitHostPort_some h⟩
  · intro hx haddr
    subst haddr
    have hsp : splitHostPort "192.168.1.1:5555" = some ("192.168.1.1", "5555") := by decide
    rw [h1 _ _ hx, h4 _ _ hsp]
    exact ⟨by decide, rfl⟩
  · intro b1 b2 hagree
    unfold StreamHandler.handleData
    apply handleDataLoop_congr
    intro n usePool
    obtain ⟨ha, hp⟩ := requestParams_remote tbl s method addr headers data.length
    unfold Request.Do
    exact hagree n _ data ha hp
  · intro k hk
    obtain ⟨ha, hp⟩ := requestParams_remote tbl s method addr headers data.length
    refine ⟨(MakeRequest (s.clientConfig addr headers)).requestParams tbl method headers
      data.length, ?_, ha, hp⟩
    unfold StreamHandler.handleData
    have hok : ∀ (calls : List DoCall) (i : Nat), k ≤ calls.length →
        (MakeRequest (s.clientConfig addr headers)).Do tbl (echoAfter k) calls.length method
            headers data (decide (i < 2))
          = .ok ([], (MakeRequest (s.clientConfig addr headers)).requestParams tbl method
              headers data.length) := by
      intro calls i hle
      have hn : ¬ calls.length < k := by omega
      simp [Request.Do, echoAfter, hn]
    have herr : ∀ (calls : List DoCall) (i : Nat), calls.length < k →
        (MakeRequest (s.clientConfig addr headers)).Do tbl (echoAfter k) calls.length method
            headers data (decide (i < 2))
          = .error "connection refused" := by
      intro calls i hlt
      simp [Request.Do, echoAfter, hlt]
    interval_cases k
    · rw [handleDataLoop_ok _ (hok _ _ (by simp))]
    · rw [handleDataLoop_retry _ (herr _ _ (by simp)) (by decide)]
      rw [handleDataLoop_ok _ (hok _ _ (by simp))]
    · rw [handleDataLoop_retry _ (herr _ _ (by simp)) (by decide)]
      rw [handleDataLoop_retry _ (herr _ _ (by simp)) (by decide)]
      rw [handleDataLoop_ok _ (hok _ _ (by simp))]
    · rw [handleDataLoop_retry _ (herr _ _ (by simp)) (by decide)]
      rw [handleDataLoop_retry _ (herr _ _ (by simp)) (by decide)]
      rw [handleDataLoop_retry _ (herr _ _ (by simp)) (by decide)]
      rw [handleDataLoop_ok _ (hok _ _ (by simp))]

/-- C9: the parameter set `Request.Do` hands to the backend is the fixed table of
`getCgiParams` extended with `"X-GRPC-" ++ k` bound to the value sequence of `k` for
every metadata key `k`; every other name, and each of the sixteen fixed names in
particular, keeps the binding of the fixed table; `CONTENT_LENGTH` is the decimal
length of the body. -/
theorem requestParams_spec (tbl : Char → Char) (r : Request) (request : String)
    (headers : Header) (body : List Byte) :
    (∀ (backend : Backend) (n : Nat) (usePool : Bool),
        r.Do tbl backend n request headers body usePool
          = backend n (r.requestParams tbl request headers body.length) body)
      ∧ (∀ k v, headers.get k = some v →
          (r.requestParams tbl request headers body.length).get ("X-GRPC-" ++ k) = some v)
      ∧ (∀ name, (∀ k, headers.get k ≠ none → name ≠ "X-GRPC-" ++ k) →
          (r.requestParams tbl request headers body.length).get name
            = (r.getCgiParams [("r", r.convert tbl request)] body.length).get name)
      ∧ (∀ name ∈ fixedNames,
          (r.requestParams tbl request headers body.length).get name
              = (r.getCgiParams [("r", r.convert tbl request)] body.length).get name
            ∧ ((r.getCgiParams [("r", r.convert tbl request)] body.length).get name).isSome
                = true)
      ∧ (r.requestParams tbl request headers body.length).get "CONTENT_LENGTH"
          = some [toString body.length] := by
  refine ⟨fun _ _ _ => rfl, requestParams_get_metadata tbl r request headers body.length,
    requestParams_get_other tbl r request headers body.length, ?_, ?_⟩
  · intro name h
    refine ⟨requestParams_get_fixed tbl r request headers body.length name h, ?_⟩
    simp only [fixedNames, List.mem_cons, List.mem_singleton, List.not_mem_nil, or_false] at h
    rcases h with h | h | h | h | h | h | h | h | h | h | h | h | h | h | h | h <;>
    · subst h
      rfl
  · rw [requestParams_get_fixed tbl r request headers body.length "CONTENT_LENGTH"
      (by decide)]
    rfl

/-! ## Malformed frames (C10) -/

/-- C10: `recvMsg` fails exactly when the stream holds fewer than 5 bytes, or fewer
bytes after the header than the header declares; when the stream ends with
end-of-file inside the payload, the error is the unexpected end-of-file; and on
every failure `HandleStream` makes no backend call and writes only status UNKNOWN
with the message `Failed to parse message`. -/
theorem recvMsg_fails_iff_short (s : StreamHandler) (ts : Reader) :
    ((∃ err, s.recvMsg ts = .error err)
        ↔ (ts.data.length < 5
          ∨ ts.data.length < 5 + bigEndianUint32 ((ts.data.take 5).drop 1)))
      ∧ (5 ≤ ts.data.length →
          ts.data.length < 5 + bigEndianUint32 ((ts.data.take 5).drop 1) →
          ts.endErr = ReadError.EOF →
          s.recvMsg ts = .error { msg := "failed to read message body"
                                  cause := ReadError.ErrUnexpectedEOF })
      ∧ (∀ (tbl : Char → Char) (backend : Backend) (writeFails : Bool) (requestId : String)
            (md : Header) (remoteAddr method : String),
          (∃ err, s.recvMsg ts = .error err) →
          s.HandleStream tbl backend writeFails requestId md remoteAddr method ts
            = some { written := [Written.status codes.Unknown "Failed to parse message"]
                     calls := [] }) := by
  refine ⟨?_, ?_, ?_⟩
  · by_cases h5 : 5 ≤ ts.data.length
    · unfold StreamHandler.recvMsg
      rw [readFull_enough ts 5 h5]
      simp only
      by_cases h0 : bigEndianUint32 ((ts.data.take 5).drop 1) = 0
      · simp only [h0, if_true]
        constructor
        · rintro ⟨err, h⟩
          cases h
        · intro h
          omega
      · simp only [h0, if_false]
        by_cases hp : bigEndianUint32 ((ts.data.take 5).drop 1) ≤ (ts.data.drop 5).length
        · rw [readFull_enough _ _ hp]
          simp only
          constructor
          · rintro ⟨err, h⟩
            cases h
          · intro h
            simp only [List.length_drop] at hp
            omega
        · rw [readFull_short _ _ (by simp only [List.length_drop] at hp ⊢; omega)]
          simp only
          constructor
          · intro _
            simp only [List.length_drop] at hp
            omega
          · intro _
            exact ⟨_, rfl⟩
    · unfold StreamHandler.recvMsg
      rw [readFull_short ts 5 (by omega)]
      simp only
      constructor
      · intro _
        left
        omega
      · intro _
        exact ⟨_, rfl⟩
  · intro h5 hshort heof
    unfold StreamHandler.recvMsg
    rw [readFull_enough ts 5 h5]
    simp only
    have h0 : ¬ bigEndianUint32 ((ts.data.take 5).drop 1) = 0 := by omega
    simp only [h0, if_false]
    rw [readFull_short _ _ (by simp only [List.length_drop]; omega)]
    simp only [heof]
    by_cases hrem : 0 < (ts.data.drop 5).length <;> simp [hrem]
  · intro tbl backend writeFails requestId md remoteAddr method h
    obtain ⟨err, h⟩ := h
    exact HandleStream_recv_error err h

end Proxy
